import Mathlib

/-!
Verification of the MCP connection manager and call dispatcher
(`src/tools/mcp.rs` of the zeroclaw repository).

The development shallowly embeds the relevant Rust code:

* a JSON value model and a line parser standing for `serde_json::from_str`
  (numbers are kept as their lexemes; numeric range checks of the Rust
  library are not modelled, which no claim here depends on);
* `is_non_standard_notification`, the stdout notification-filter classifier;
* the configuration types, `resolve_server`, `is_tool_allowed`;
* `get_or_connect`, with the process-spawn / stdio-capture / handshake
  outcomes supplied as an explicit environment and the connection cache as an
  association list;
* `execute`, with the remote `call_tool` outcome supplied as a function of
  the request parameters that would be sent;
* `parameters_schema`, with serde's index-assignment modelled functionally.
-/

/-- JSON values as produced by `serde_json::from_str::<serde_json::Value>`.
Numbers are represented by their lexemes. -/
inductive Json where
  | null : Json
  | bool (b : Bool) : Json
  | num (lexeme : String) : Json
  | str (s : String) : Json
  | arr (elems : List Json) : Json
  | obj (fields : List (String × Json)) : Json

/-- `p` is a (character) prefix of `l`. -/
def isPre : List Char → List Char → Bool
  | [], _ => true
  | _ :: _, [] => false
  | a :: xs, b :: ys => a == b && isPre xs ys

/-- `str::starts_with` on strings (byte prefix = character prefix for UTF-8). -/
def strStartsWith (s p : String) : Bool := isPre p.data s.data

/-- `pat` occurs as a contiguous substring of `l`. -/
def hasSub (pat : List Char) : List Char → Bool
  | [] => isPre pat []
  | c :: cs => isPre pat (c :: cs) || hasSub pat cs

/-- `str::contains` with a string pattern. -/
def strContains (s pat : String) : Bool := hasSub pat.data s.data

/-- `str::trim`: drop leading and trailing whitespace. -/
def rsTrim (s : String) : String :=
  String.mk (((s.data.dropWhile Char.isWhitespace).reverse.dropWhile Char.isWhitespace).reverse)

/-- JSON insignificant whitespace (RFC 8259): space, tab, newline, carriage return. -/
def jsonWs (c : Char) : Bool :=
  c = ' ' || c = '\t' || c = '\n' || c = '\r'

/-- Skip leading JSON whitespace. -/
def skipWs : List Char → List Char
  | [] => []
  | c :: cs => if jsonWs c then skipWs cs else c :: cs

/-- ASCII decimal digit test. -/
def isDigit (c : Char) : Bool := '0' ≤ c && c ≤ '9'

/-- Value of a hexadecimal digit: `0`-`9`, `a`-`f`, `A`-`F`. -/
def hexVal (c : Char) : Option Nat :=
  let n := c.toNat
  if 48 ≤ n && n ≤ 57 then some (n - 48)
  else if 97 ≤ n && n ≤ 102 then some (n - 87)
  else if 65 ≤ n && n ≤ 70 then some (n - 55)
  else none

/-- Read four hex digits (the `\uXXXX` escape payload). -/
def parseHex4 : List Char → Option (Nat × List Char)
  | a :: b :: c :: d :: rest =>
    match hexVal a, hexVal b, hexVal c, hexVal d with
    | some va, some vb, some vc, some vd =>
      some ((((va * 16 + vb) * 16 + vc) * 16 + vd), rest)
    | _, _, _, _ => none
  | _ => none

/-- Parse the body of a JSON string after the opening quote, handling the
escape sequences accepted by serde_json (including surrogate pairs);
unescaped control characters are rejected. -/
def parseStrBody : Nat → List Char → List Char → Option (String × List Char)
  | 0, _, _ => none
  | _ + 1, _, [] => none
  | fuel + 1, acc, c :: cs =>
    if c = '"' then some (String.mk acc.reverse, cs)
    else if c = '\\' then
      match cs with
      | [] => none
      | e :: cs1 =>
        if e = '"' then parseStrBody fuel ('"' :: acc) cs1
        else if e = '\\' then parseStrBody fuel ('\\' :: acc) cs1
        else if e = '/' then parseStrBody fuel ('/' :: acc) cs1
        else if e = 'b' then parseStrBody fuel ('\x08' :: acc) cs1
        else if e = 'f' then parseStrBody fuel ('\x0c' :: acc) cs1
        else if e = 'n' then parseStrBody fuel ('\n' :: acc) cs1
        else if e = 'r' then parseStrBody fuel ('\r' :: acc) cs1
        else if e = 't' then parseStrBody fuel ('\t' :: acc) cs1
        else if e = 'u' then
          match parseHex4 cs1 with
          | none => none
          | some (n, cs2) =>
            if 0xD800 ≤ n && n ≤ 0xDBFF then
              match cs2 with
              | '\\' :: 'u' :: cs3 =>
                match parseHex4 cs3 with
                | some (m, cs4) =>
                  if 0xDC00 ≤ m && m ≤ 0xDFFF then
                    parseStrBody fuel
                      (Char.ofNat (0x10000 + (n - 0xD800) * 0x400 + (m - 0xDC00)) :: acc) cs4
                  else none
                | none => none
              | _ => none
            else if 0xDC00 ≤ n && n ≤ 0xDFFF then none
            else parseStrBody fuel (Char.ofNat n :: acc) cs2
        else none
    else if c.toNat < 0x20 then none
    else parseStrBody fuel (c :: acc) cs

/-- Take a maximal run of decimal digits. -/
def takeDigits : List Char → List Char × List Char
  | [] => ([], [])
  | c :: cs =>
    if isDigit c then
      let (d, r) := takeDigits cs
      (c :: d, r)
    else ([], c :: cs)

/-- Integer part of a JSON number: `0` or a nonzero digit followed by digits. -/
def parseIntPart : List Char → Option (List Char × List Char)
  | [] => none
  | c :: cs =>
    if c = '0' then some ([c], cs)
    else if isDigit c then
      let (d, r) := takeDigits cs
      some (c :: d, r)
    else none

/-- Optional fraction part of a JSON number. -/
def parseFracPart : List Char → Option (List Char × List Char)
  | '.' :: cs =>
    match takeDigits cs with
    | ([], _) => none
    | (d, r) => some ('.' :: d, r)
  | cs => some ([], cs)

/-- Optional exponent part of a JSON number. -/
def parseExpPart : List Char → Option (List Char × List Char)
  | [] => some ([], [])
  | c :: cs =>
    if c = 'e' || c = 'E' then
      let (sgn, cs1) :=
        match cs with
        | s :: cs2 => if s = '+' || s = '-' then ([s], cs2) else (([] : List Char), s :: cs2)
        | [] => (([] : List Char), ([] : List Char))
      match takeDigits cs1 with
      | ([], _) => none
      | (d, r) => some (c :: (sgn ++ d), r)
    else some ([], c :: cs)

/-- Parse a JSON number, returning its lexeme. -/
def parseNum (cs : List Char) : Option (String × List Char) :=
  let (sgn, cs0) :=
    match cs with
    | '-' :: r => (['-'], r)
    | _ => (([] : List Char), cs)
  match parseIntPart cs0 with
  | none => none
  | some (ip, cs1) =>
    match parseFracPart cs1 with
    | none => none
    | some (fp, cs2) =>
      match parseExpPart cs2 with
      | none => none
      | some (ep, cs3) => some (String.mk (sgn ++ ip ++ fp ++ ep), cs3)

/-- Insert a field into an object, replacing an existing binding of the same
key (serde_json's map insertion: the last duplicate key wins). -/
def insertField : List (String × Json) → String → Json → List (String × Json)
  | [], k, v => [(k, v)]
  | (k1, v1) :: rest, k, v =>
    if k1 = k then (k, v) :: rest else (k1, v1) :: insertField rest k v

mutual

/-- Parse one JSON value (fuel bounds the nesting recursion). -/
def parseVal : Nat → List Char → Option (Json × List Char)
  | 0, _ => none
  | fuel + 1, cs =>
    match skipWs cs with
    | [] => none
    | c :: cs1 =>
      if c = 'n' then
        match cs1 with
        | 'u' :: 'l' :: 'l' :: r => some (Json.null, r)
        | _ => none
      else if c = 't' then
        match cs1 with
        | 'r' :: 'u' :: 'e' :: r => some (Json.bool true, r)
        | _ => none
      else if c = 'f' then
        match cs1 with
        | 'a' :: 'l' :: 's' :: 'e' :: r => some (Json.bool false, r)
        | _ => none
      else if c = '"' then
        match parseStrBody (cs1.length + 1) [] cs1 with
        | some (s, r) => some (Json.str s, r)
        | none => none
      else if c = '[' then
        match skipWs cs1 with
        | ']' :: r => some (Json.arr [], r)
        | cs2 =>
          match parseArrItems fuel cs2 with
          | some (xs, r) => some (Json.arr xs, r)
          | none => none
      else if c = '\x7b' then
        match skipWs cs1 with
        | '\x7d' :: r => some (Json.obj [], r)
        | cs2 =>
          match parseObjItems fuel [] cs2 with
          | some (fs, r) => some (Json.obj fs, r)
          | none => none
      else if c = '-' || isDigit c then
        match parseNum (c :: cs1) with
        | some (lex, r) => some (Json.num lex, r)
        | none => none
      else none

/-- Parse the comma-separated items of a non-empty JSON array, consuming the
closing bracket. -/
def parseArrItems : Nat → List Char → Option (List Json × List Char)
  | 0, _ => none
  | fuel + 1, cs =>
    match parseVal fuel cs with
    | none => none
    | some (v, r) =>
      match skipWs r with
      | ',' :: r1 =>
        match parseArrItems fuel r1 with
        | some (xs, r2) => some (v :: xs, r2)
        | none => none
      | ']' :: r1 => some ([v], r1)
      | _ => none

/-- Parse the members of a non-empty JSON object, consuming the closing
brace; duplicate keys are resolved by `insertField` (last wins). -/
def parseObjItems : Nat → List (String × Json) → List Char → Option (List (String × Json) × List Char)
  | 0, _, _ => none
  | fuel + 1, acc, cs =>
    match skipWs cs with
    | '"' :: cs1 =>
      match parseStrBody (cs1.length + 1) [] cs1 with
      | none => none
      | some (k, r) =>
        match skipWs r with
        | ':' :: r1 =>
          match parseVal fuel r1 with
          | none => none
          | some (v, r2) =>
            match skipWs r2 with
            | ',' :: r3 => parseObjItems fuel (insertField acc k v) r3
            | '\x7d' :: r3 => some (insertField acc k v, r3)
            | _ => none
        | _ => none
    | _ => none

end

/-- `serde_json::from_str::<serde_json::Value>`: one JSON value, possibly
surrounded by whitespace, spanning the whole input. -/
def parseJson (s : String) : Option Json :=
  match parseVal (s.length + 1) s.data with
  | none => none
  | some (v, rest) => if (skipWs rest).isEmpty then some v else none

/-- `serde_json::Value::get` with a string index: a field of an object. -/
def Json.get : Json → String → Option Json
  | Json.obj fs, k => List.lookup k fs
  | _, _ => none

/-- `serde_json::Value::as_str`. -/
def Json.asStr : Json → Option String
  | Json.str s => some s
  | _ => none

/-- `serde_json::Value::as_object` (the field list of an object). -/
def Json.asObj : Json → Option (List (String × Json))
  | Json.obj fs => some fs
  | _ => none

/-- `is_non_standard_notification` (src/tools/mcp.rs): `true` iff the line is
a JSON-RPC notification whose method is neither a standard-prefix nor a
lifecycle method — exactly the lines the stdout filter drops. -/
def is_non_standard_notification (line : String) : Bool :=
  match parseJson line with
  | none => false
  | some val =>
    match (Json.get val "method").bind Json.asStr with
    | none => false
    | some method =>
      if (Json.get val "id").isSome then false
      else if strStartsWith method "notifications/" || strStartsWith method "$/" then false
      else if method == "initialized" || method == "cancelled" || method == "progress" then false
      else true

/-- The per-line action of the stdout filter task: forward every line except
non-standard notifications, unchanged. -/
def filterStream (lines : List String) : List String :=
  lines.filter (fun l => !is_non_standard_notification l)

/-- `McpServerConfig` (crate::config): one configured MCP server. -/
structure McpServerConfig where
  name : String
  command : String
  args : List String
  allowed_tools : List String
  tool_timeout_secs : Nat
  startup_timeout_secs : Nat
  notes : Option String

/-- `McpConfig` (crate::config). -/
structure McpConfig where
  enabled : Bool
  servers : List McpServerConfig

/-- `ToolResult` (super::traits). -/
structure ToolResult where
  success : Bool
  output : String
  error : Option String
deriving DecidableEq

/-- The two security-capability checks `execute` consults, as their boolean
outcomes: `SecurityPolicy::can_act` and `SecurityPolicy::record_action`. -/
structure SecurityCaps where
  can_act : Bool
  record_action : Bool

/-- `Vec::join(sep)` / `slice::join`. -/
def joinWith (sep : String) : List String → String
  | [] => ""
  | [x] => x
  | x :: y :: rest => x ++ sep ++ joinWith sep (y :: rest)

/-- One character under Rust's `Debug` string escaping (the common escapes:
quote, backslash, newline, carriage return, tab). -/
def escDebugChar (c : Char) : List Char :=
  if c = '"' then ['\\', '"']
  else if c = '\\' then ['\\', '\\']
  else if c = '\n' then ['\\', 'n']
  else if c = '\r' then ['\\', 'r']
  else if c = '\t' then ['\\', 't']
  else [c]

/-- Rust `Debug` escaping of a string's characters. -/
def escapeDebug (s : String) : String := String.mk (s.data.map escDebugChar).flatten

/-- Rust `format!("{:?}", s)` for one string: quoted and escaped. -/
def rustDebugStr (s : String) : String := "\"" ++ escapeDebug s ++ "\""

/-- Rust `format!("{:?}", v)` for a vector of strings:
`["a", "b"]`. -/
def rustDebugList (l : List String) : String :=
  "[" ++ joinWith ", " (l.map rustDebugStr) ++ "]"

/-- The unknown-server message built by `resolve_server`. -/
def unknownServerMsg (name : String) (cfg : McpConfig) : String :=
  "Unknown MCP server '" ++ name ++ "'. Available servers: " ++
    rustDebugList (cfg.servers.map (fun s => s.name))

/-- `McpTool::resolve_server`: find the configuration by name, or report the
available names. -/
def resolve_server (cfg : McpConfig) (name : String) : Except String McpServerConfig :=
  match cfg.servers.find? (fun s => s.name == name) with
  | some s => Except.ok s
  | none => Except.error (unknownServerMsg name cfg)

/-- `McpTool::is_tool_allowed`: an empty allow-list permits everything,
otherwise the tool must be listed. -/
def is_tool_allowed (server : McpServerConfig) (tool_name : String) : Bool :=
  server.allowed_tools.isEmpty || server.allowed_tools.any (fun t => t == tool_name)

/-- Outcome of `Command::spawn` for the configured server command. -/
inductive SpawnOutcome where
  | ok : SpawnOutcome
  | err (msg : String) : SpawnOutcome

/-- Outcome of the rmcp handshake (`().serve(...)`) raced against the
startup timeout. -/
inductive HandshakeOutcome where
  | ok : HandshakeOutcome
  | timeout : HandshakeOutcome
  | failed (msg : String) : HandshakeOutcome

/-- The environment a fresh connection attempt runs in: spawn outcome,
whether the child's stdio handles could be taken, handshake outcome. -/
structure ConnEnv where
  spawn : SpawnOutcome
  stdout_ok : Bool
  stdin_ok : Bool
  handshake : HandshakeOutcome

/-- Message for a failed `Command::spawn` in `get_or_connect`. -/
def spawnFailMsg (server : McpServerConfig) (e : String) : String :=
  "Failed to spawn MCP server '" ++ server.name ++ "' (command: " ++ server.command ++
    " " ++ joinWith " " server.args ++ "): " ++ e

/-- Message for a handshake that exceeded `startup_timeout_secs`. -/
def startupTimeoutMsg (server : McpServerConfig) : String :=
  "MCP server '" ++ server.name ++ "' startup timed out after " ++
    toString server.startup_timeout_secs ++ "s"

/-- Message for a handshake/protocol failure. -/
def initFailedMsg (server : McpServerConfig) (e : String) : String :=
  "MCP server '" ++ server.name ++ "' initialization failed: " ++ e

/-- Association-list update with replacement: `HashMap::insert`. -/
def insertOverwrite : List (String × Nat) → String → Nat → List (String × Nat)
  | [], k, v => [(k, v)]
  | (k1, v1) :: rest, k, v =>
    if k1 = k then (k, v) :: rest else (k1, v1) :: insertOverwrite rest k v

/-- The fresh-connection path of `get_or_connect`: spawn the child, take its
stdio, run the handshake under the startup timeout; cache the new handle only
on success. Connection handles are abstracted as numbers; `fresh` is the
handle a successful connect would produce. -/
def connectFresh (server : McpServerConfig) (cache : List (String × Nat))
    (env : ConnEnv) (fresh : Nat) : Except String Nat × List (String × Nat) :=
  match env.spawn with
  | SpawnOutcome.err e => (Except.error (spawnFailMsg server e), cache)
  | SpawnOutcome.ok =>
    if !env.stdout_ok then
      (Except.error ("Failed to capture stdout for MCP server '" ++ server.name ++ "'"), cache)
    else if !env.stdin_ok then
      (Except.error ("Failed to capture stdin for MCP server '" ++ server.name ++ "'"), cache)
    else
      match env.handshake with
      | HandshakeOutcome.timeout => (Except.error (startupTimeoutMsg server), cache)
      | HandshakeOutcome.failed e => (Except.error (initFailedMsg server e), cache)
      | HandshakeOutcome.ok => (Except.ok fresh, insertOverwrite cache server.name fresh)

/-- `McpTool::get_or_connect`: reuse a cached live connection, otherwise
connect afresh. `alive` is the `!is_transport_closed()` liveness check. -/
def get_or_connect (server : McpServerConfig) (cache : List (String × Nat))
    (alive : Nat → Bool) (env : ConnEnv) (fresh : Nat) :
    Except String Nat × List (String × Nat) :=
  match List.lookup server.name cache with
  | some h =>
    if alive h then (Except.ok h, cache)
    else connectFresh server cache env fresh
  | none => connectFresh server cache env fresh

/-- `RawContent` of an rmcp content item: the text variant or anything else. -/
inductive RawContent where
  | text (s : String) : RawContent
  | other : RawContent

/-- The payload of a successful `call_tool` reply. -/
structure CallToolReply where
  content : List RawContent
  is_error : Option Bool

/-- Outcome of the timeout-bounded `call_tool` invocation. -/
inductive CallOutcome where
  | ok (reply : CallToolReply) : CallOutcome
  | rpcError (msg : String) : CallOutcome
  | timeout : CallOutcome

/-- `CallToolRequestParam`: what `execute` sends to the transport. -/
structure CallToolRequestParam where
  name : String
  arguments : Option (List (String × Json))

/-- `McpTool::extract_text_from_content`: keep the text items, join with
newlines. -/
def extract_text_from_content (content : List RawContent) : String :=
  joinWith "\n"
    (content.filterMap (fun c =>
      match c with
      | RawContent.text s => some s
      | RawContent.other => none))

/-- Result of `execute`: a hard (propagated) error, or an `Ok(ToolResult)`. -/
inductive ExecResult where
  | hard (msg : String) : ExecResult
  | res (r : ToolResult) : ExecResult
deriving DecidableEq

/-- Field extraction as `execute` performs it on `server` and `tool`:
string field, trimmed, rejected when empty. -/
def getField (args : Json) (k : String) : Option String :=
  (((Json.get args k).bind Json.asStr).map rsTrim).filter (fun v => !v.isEmpty)

/-- The disallowed-tool message of `execute`. -/
def disallowedToolMsg (tool_name server_name : String) (server : McpServerConfig) : String :=
  "Tool '" ++ tool_name ++ "' is not in the allowed_tools list for MCP server '" ++
    server_name ++ "'. Allowed: " ++ rustDebugList server.allowed_tools

/-- The error message for a remote tool reply carrying `is_error = true`. -/
def remoteErrMsg (tool_name text : String) : String :=
  if text.isEmpty then "MCP tool '" ++ tool_name ++ "' returned an error"
  else "MCP tool '" ++ tool_name ++ "' error: " ++ text

/-- The error message for an RPC-level `call_tool` failure. -/
def rpcFailMsg (tool_name server_name e : String) : String :=
  "MCP tool call '" ++ tool_name ++ "' on server '" ++ server_name ++ "' failed: " ++ e

/-- The error message for a call exceeding `tool_timeout_secs`. -/
def timeoutMsg (tool_name server_name : String) (tool_timeout_secs : Nat) : String :=
  "MCP tool call '" ++ tool_name ++ "' on server '" ++ server_name ++
    "' timed out after " ++ toString tool_timeout_secs ++ "s"

/-- The outcome mapping at the tail of `execute`. -/
def mapCallOutcome (tool_name server_name : String) (tool_timeout_secs : Nat) :
    CallOutcome → ExecResult
  | CallOutcome.ok reply =>
    let is_error := reply.is_error.getD false
    let text := extract_text_from_content reply.content
    let error := if is_error then some (remoteErrMsg tool_name text) else none
    ExecResult.res ⟨!is_error, text, error⟩
  | CallOutcome.rpcError e =>
    ExecResult.res ⟨false, "", some (rpcFailMsg tool_name server_name e)⟩
  | CallOutcome.timeout =>
    ExecResult.res ⟨false, "", some (timeoutMsg tool_name server_name tool_timeout_secs)⟩

/-- `McpTool::execute`. The security capabilities, connection cache,
liveness check, connection environment and the remote call outcome are
explicit parameters; everything else follows the source's control flow. -/
def execute (sec : SecurityCaps) (cfg : McpConfig) (args : Json)
    (cache : List (String × Nat)) (alive : Nat → Bool) (env : ConnEnv) (fresh : Nat)
    (call : CallToolRequestParam → CallOutcome) : ExecResult :=
  if !sec.can_act then
    ExecResult.res ⟨false, "", some "Action blocked: autonomy is read-only"⟩
  else if !sec.record_action then
    ExecResult.res ⟨false, "", some "Action blocked: rate limit exceeded"⟩
  else
    match getField args "server" with
    | none => ExecResult.hard "Missing 'server' parameter"
    | some server_name =>
      match getField args "tool" with
      | none => ExecResult.hard "Missing 'tool' parameter"
      | some tool_name =>
        match resolve_server cfg server_name with
        | Except.error e => ExecResult.res ⟨false, "", some e⟩
        | Except.ok server =>
          if !is_tool_allowed server tool_name then
            ExecResult.res ⟨false, "", some (disallowedToolMsg tool_name server_name server)⟩
          else
            match (get_or_connect server cache alive env fresh).1 with
            | Except.error e => ExecResult.res ⟨false, "", some e⟩
            | Except.ok _ =>
              let arguments := (Json.get args "arguments").bind Json.asObj
              mapCallOutcome tool_name server_name server.tool_timeout_secs
                (call ⟨tool_name, arguments⟩)

/-- Association-list update applying `f` to the bound value; a missing key is
created from `Json.null` (serde's `IndexMut` on objects). -/
def updateField : List (String × Json) → String → (Json → Json) → List (String × Json)
  | [], k, f => [(k, f Json.null)]
  | (k1, v) :: rest, k, f =>
    if k1 = k then (k, f v) :: rest else (k1, v) :: updateField rest k f

/-- Apply `f` to field `k` of an object (non-objects are left unchanged; the
source only ever indexes objects here). -/
def objUpdate (j : Json) (k : String) (f : Json → Json) : Json :=
  match j with
  | Json.obj fs => Json.obj (updateField fs k f)
  | other => other

/-- The `json!` literal at the top of `McpTool::parameters_schema`. -/
def baseSchema : Json :=
  Json.obj [
    ("type", Json.str "object"),
    ("properties", Json.obj [
      ("server", Json.obj [
        ("type", Json.str "string"),
        ("description", Json.str "Name of the MCP server (e.g. \"codex\")")]),
      ("tool", Json.obj [
        ("type", Json.str "string"),
        ("description", Json.str "Name of the tool on that server. For codex: use \"codex\" to start a new session (requires \x7b\"prompt\": \"...\"\x7d), or \"codex-reply\" to continue an existing session (requires \x7b\"threadId\": \"...\", \"prompt\": \"...\"\x7d)")]),
      ("arguments", Json.obj [
        ("type", Json.str "object"),
        ("description", Json.str "Arguments object passed to the tool. For the \"codex\" tool: \x7b\"prompt\": \"your task\"\x7d is required. For \"codex-reply\": \x7b\"threadId\": \"...\", \"prompt\": \"follow-up\"\x7d is required.")])
    ]),
    ("required", Json.arr [Json.str "server", Json.str "tool", Json.str "arguments"])
  ]

/-- `McpTool::parameters_schema`: the base schema, with the server-name enum
filled in when servers are configured. -/
def parameters_schema (cfg : McpConfig) : Json :=
  if cfg.servers.isEmpty then baseSchema
  else
    let names := cfg.servers.map (fun s => s.name)
    objUpdate baseSchema "properties" (fun props =>
      objUpdate props "server" (fun srv =>
        objUpdate srv "enum" (fun _ => Json.arr (names.map Json.str))))

/-! Test fixtures mirroring the source's test module. -/

/-- The `codex` server of the source's `test_config`. -/
def testServerCodex : McpServerConfig :=
  ⟨"codex", "codex", ["mcp-server"], ["codex", "codex-reply"], 600, 20,
    some "OpenAI Codex coding agent"⟩

/-- The `filesystem` server of the source's `test_config`. -/
def testServerFs : McpServerConfig :=
  ⟨"filesystem", "mcp-server-fs", [], [], 120, 30, none⟩

/-- The source's `test_config`. -/
def testConfig : McpConfig := ⟨true, [testServerCodex, testServerFs]⟩

/-- A request naming the `codex` server and tool. -/
def argsCodex : Json :=
  Json.obj [("server", Json.str "codex"), ("tool", Json.str "codex")]

/-- A request naming a server that is not configured. -/
def argsUnknown : Json :=
  Json.obj [("server", Json.str "nonexistent"), ("tool", Json.str "codex")]

/-- An environment in which spawn, stdio capture and handshake all succeed. -/
def envAllOk : ConnEnv := ⟨SpawnOutcome.ok, true, true, HandshakeOutcome.ok⟩

/-- A single-server configuration used for the remote-error observations. -/
def cfgSrv : McpConfig :=
  ⟨true, [⟨"srv", "srv-cmd", [], ["codex"], 5, 5, none⟩]⟩

/-- A request naming the `srv` server and the `codex` tool. -/
def argsSrv : Json :=
  Json.obj [("server", Json.str "srv"), ("tool", Json.str "codex")]

/-! Helper lemmas. -/

theorem isPre_iff : ∀ p l : List Char, isPre p l = true ↔ p <+: l
  | [], l => by simp [isPre, List.nil_prefix]
  | a :: xs, [] => by simp [isPre]
  | a :: xs, b :: ys => by
    simp [isPre, Bool.and_eq_true, beq_iff_eq, isPre_iff xs ys, List.cons_prefix_cons]

theorem hasSub_iff : ∀ (p l : List Char), hasSub p l = true ↔ p <:+: l
  | p, [] => by simp [hasSub, isPre_iff, List.infix_nil]
  | p, c :: cs => by
    simp [hasSub, Bool.or_eq_true, isPre_iff, hasSub_iff p cs, List.infix_cons_iff]

theorem strContains_iff (s pat : String) : strContains s pat = true ↔ pat.data <:+: s.data :=
  hasSub_iff pat.data s.data

theorem strContains_intro {s pat : String} (h : pat.data <:+: s.data) :
    strContains s pat = true :=
  (strContains_iff s pat).mpr h

theorem infix_extend_right {p a : List Char} (h : p <:+: a) (b : List Char) :
    p <:+: a ++ b :=
  h.trans ⟨[], b, by simp⟩

theorem infix_extend_left (a : List Char) {p b : List Char} (h : p <:+: b) :
    p <:+: a ++ b :=
  h.trans ⟨a, [], by simp⟩

theorem strContains_append_left {a pat : String} (h : strContains a pat = true) (b : String) :
    strContains (a ++ b) pat = true := by
  refine strContains_intro ?_
  rw [String.data_append]
  exact infix_extend_right ((strContains_iff a pat).mp h) b.data

theorem strContains_append_right (a : String) {b pat : String} (h : strContains b pat = true) :
    strContains (a ++ b) pat = true := by
  refine strContains_intro ?_
  rw [String.data_append]
  exact infix_extend_left a.data ((strContains_iff b pat).mp h)

theorem strContains_refl (s : String) : strContains s s = true :=
  strContains_intro (List.infix_refl s.data)

theorem infix_joinWith (sep : String) :
    ∀ (l : List String) (x : String), x ∈ l → x.data <:+: (joinWith sep l).data
  | [], x, h => by cases h
  | [y], x, h => by
    rcases List.mem_singleton.mp h with rfl
    exact List.infix_refl _
  | y :: z :: rest, x, h => by
    rcases List.mem_cons.mp h with rfl | h2
    · refine ⟨[], (sep ++ joinWith sep (z :: rest)).data, ?_⟩
      simp [joinWith, String.data_append, List.append_assoc]
    · refine (infix_joinWith sep (z :: rest) x h2).trans ⟨(y ++ sep).data, [], ?_⟩
      simp [joinWith, String.data_append, List.append_assoc]

theorem infix_rustDebugList {x : String} {l : List String} (h : x ∈ l) :
    (rustDebugStr x).data <:+: (rustDebugList l).data := by
  have h1 : (rustDebugStr x).data <:+: (joinWith ", " (l.map rustDebugStr)).data :=
    infix_joinWith _ _ _ (List.mem_map_of_mem _ h)
  refine h1.trans ⟨"[".data, "]".data, ?_⟩
  simp [rustDebugList, String.data_append, List.append_assoc]

theorem infix_name_rustDebugList {x : String} {l : List String} (h : x ∈ l)
    (he : escapeDebug x = x) : x.data <:+: (rustDebugList l).data := by
  have h0 : x.data <:+: (rustDebugStr x).data := by
    refine ⟨['"'], ['"'], ?_⟩
    have : (rustDebugStr x).data = '"' :: (x.data ++ ['"']) := by
      simp [rustDebugStr, he, String.data_append]
    simp [this]
  exact h0.trans (infix_rustDebugList h)

theorem lookup_insertOverwrite :
    ∀ (c : List (String × Nat)) (k : String) (v : Nat),
      List.lookup k (insertOverwrite c k v) = some v
  | [], k, v => by simp [insertOverwrite, List.lookup]
  | (k1, v1) :: rest, k, v => by
    by_cases h : k1 = k
    · simp [insertOverwrite, h, List.lookup]
    · have hb : (k == k1) = false := by
        simp only [beq_eq_false_iff_ne, ne_eq]
        exact fun e => h e.symm
      simp [insertOverwrite, h, List.lookup, hb, lookup_insertOverwrite rest k v]

theorem str_ne_of_take_ne {s t : String} (n : Nat)
    (h : s.data.take n ≠ t.data.take n) : s ≠ t :=
  fun e => h (by rw [e])

/-- C1: the notification-filter classifier drops a line iff it parses as
JSON, has no `id` field, has a string `method` field, and that method neither
starts with `notifications/` nor `$/` nor equals `initialized`, `cancelled`
or `progress`; the four concrete lines of the claim behave as stated, and a
non-JSON line passes through the filter unchanged. -/
theorem mcp_c1_notification_classifier :
    (∀ line : String,
      is_non_standard_notification line = true ↔
        ∃ v, parseJson line = some v ∧
          Json.get v "id" = none ∧
          ∃ m, (Json.get v "method").bind Json.asStr = some m ∧
            strStartsWith m "notifications/" = false ∧
            strStartsWith m "$/" = false ∧
            m ≠ "initialized" ∧ m ≠ "cancelled" ∧ m ≠ "progress")
    ∧ is_non_standard_notification
        "\x7b\"jsonrpc\":\"2.0\",\"method\":\"codex/event\",\"params\":\x7b\x7d\x7d" = true
    ∧ is_non_standard_notification
        "\x7b\"jsonrpc\":\"2.0\",\"method\":\"notifications/progress\"\x7d" = false
    ∧ is_non_standard_notification
        "\x7b\"jsonrpc\":\"2.0\",\"id\":1,\"method\":\"codex/event\"\x7d" = false
    ∧ is_non_standard_notification "not json at all" = false
    ∧ filterStream ["not json at all"] = ["not json at all"] := by
  refine ⟨?_, by decide, by decide, by decide, by decide, by decide⟩
  intro line
  cases hp : parseJson line with
  | none => simp [is_non_standard_notification, hp]
  | some v =>
    cases hm : (Json.get v "method").bind Json.asStr with
    | none => simp [is_non_standard_notification, hp, hm]
    | some m =>
      simp only [is_non_standard_notification, hp, hm, Option.some.injEq,
        exists_eq_left', exists_eq_left]
      cases hid2 : Json.get v "id" with
      | some idv => simp [hid2]
      | none =>
        simp only [hid2, Option.isSome_none, Bool.false_eq_true, if_false, true_and]
        by_cases hn : strStartsWith m "notifications/" = true <;>
          by_cases hd : strStartsWith m "$/" = true <;>
          by_cases hi : m = "initialized" <;>
          by_cases hc : m = "cancelled" <;>
          by_cases hpr : m = "progress" <;>
          simp_all [Bool.not_eq_true]

/-- C2: whenever the autonomy capability denies acting, `execute` returns a
read-only denial `ToolResult` (no hard error) regardless of every other
input; otherwise, whenever the rate-limit capability rejects recording, it
returns a rate-limit denial; both are decided before any other processing. -/
theorem mcp_c2_security_gates
    (sec : SecurityCaps) (cfg : McpConfig) (args : Json) (cache : List (String × Nat))
    (alive : Nat → Bool) (env : ConnEnv) (fresh : Nat)
    (call : CallToolRequestParam → CallOutcome) :
    (sec.can_act = false →
      execute sec cfg args cache alive env fresh call =
        ExecResult.res ⟨false, "", some "Action blocked: autonomy is read-only"⟩ ∧
      strContains "Action blocked: autonomy is read-only" "read-only" = true) ∧
    (sec.can_act = true → sec.record_action = false →
      execute sec cfg args cache alive env fresh call =
        ExecResult.res ⟨false, "", some "Action blocked: rate limit exceeded"⟩ ∧
      strContains "Action blocked: rate limit exceeded" "rate limit" = true) := by
  constructor
  · intro h
    exact ⟨by simp [execute, h], by decide⟩
  · intro h1 h2
    exact ⟨by simp [execute, h1, h2], by decide⟩

/-- Witness for C2 at the source's test fixtures: read-only autonomy and a
zero action budget each produce their denial. -/
theorem mcp_c2_security_gates_witness :
    execute ⟨false, true⟩ testConfig argsCodex [] (fun _ => false) envAllOk 0
        (fun _ => CallOutcome.timeout) =
      ExecResult.res ⟨false, "", some "Action blocked: autonomy is read-only"⟩ ∧
    execute ⟨true, false⟩ testConfig argsCodex [] (fun _ => false) envAllOk 0
        (fun _ => CallOutcome.timeout) =
      ExecResult.res ⟨false, "", some "Action blocked: rate limit exceeded"⟩ :=
  ⟨((mcp_c2_security_gates ⟨false, true⟩ testConfig argsCodex [] (fun _ => false) envAllOk 0
      (fun _ => CallOutcome.timeout)).1 rfl).1,
   ((mcp_c2_security_gates ⟨true, false⟩ testConfig argsCodex [] (fun _ => false) envAllOk 0
      (fun _ => CallOutcome.timeout)).2 rfl rfl).1⟩

/-- C3: a request naming an unconfigured server (past the gates and field
validation) yields `success = false` with the unknown-server message, which
contains `Unknown MCP server` and enumerates every configured server name
(each appears in its Rust-debug-quoted form; verbatim whenever the name
needs no debug escaping). -/
theorem mcp_c3_unknown_server
    (sec : SecurityCaps) (cfg : McpConfig) (args : Json) (cache : List (String × Nat))
    (alive : Nat → Bool) (env : ConnEnv) (fresh : Nat)
    (call : CallToolRequestParam → CallOutcome) (server_name tool_name : String)
    (h1 : sec.can_act = true) (h2 : sec.record_action = true)
    (hs : getField args "server" = some server_name)
    (ht : getField args "tool" = some tool_name)
    (hu : ∀ s ∈ cfg.servers, s.name ≠ server_name) :
    execute sec cfg args cache alive env fresh call =
      ExecResult.res ⟨false, "", some (unknownServerMsg server_name cfg)⟩ ∧
    strContains (unknownServerMsg server_name cfg) "Unknown MCP server" = true ∧
    (∀ s ∈ cfg.servers,
      strContains (unknownServerMsg server_name cfg) (rustDebugStr s.name) = true) ∧
    (∀ s ∈ cfg.servers, escapeDebug s.name = s.name →
      strContains (unknownServerMsg server_name cfg) s.name = true) := by
  have hfind : cfg.servers.find? (fun s => s.name == server_name) = none := by
    rw [List.find?_eq_none]
    intro s hsm
    simp [beq_iff_eq]
    exact hu s hsm
  have hmsg : unknownServerMsg server_name cfg =
      ("Unknown MCP server '" ++ server_name ++ "'. Available servers: ") ++
        rustDebugList (cfg.servers.map (fun s => s.name)) := by
    simp [unknownServerMsg, String.append_assoc]
  refine ⟨?_, ?_, ?_, ?_⟩
  · simp [execute, h1, h2, hs, ht, resolve_server, hfind]
  · rw [hmsg]
    refine strContains_append_left (strContains_append_left ?_ _) _
    exact strContains_append_left (by decide) server_name
  · intro s hsm
    rw [hmsg]
    refine strContains_append_right _ ?_
    exact strContains_intro (infix_rustDebugList (List.mem_map_of_mem _ hsm))
  · intro s hsm he
    rw [hmsg]
    refine strContains_append_right _ ?_
    exact strContains_intro (infix_name_rustDebugList (List.mem_map_of_mem _ hsm) he)

/-- Witness for C3: the `nonexistent` server of the source's test. -/
theorem mcp_c3_unknown_server_witness :
    execute ⟨true, true⟩ testConfig argsUnknown [] (fun _ => false) envAllOk 0
        (fun _ => CallOutcome.timeout) =
      ExecResult.res ⟨false, "", some (unknownServerMsg "nonexistent" testConfig)⟩ :=
  (mcp_c3_unknown_server ⟨true, true⟩ testConfig argsUnknown [] (fun _ => false) envAllOk 0
      (fun _ => CallOutcome.timeout) "nonexistent" "codex" rfl rfl (by decide) (by decide)
      (by decide)).1

/-- C4: an empty allow-list accepts every tool name; a non-empty allow-list
accepts exactly its members; and a rejected request fails with a message
naming the offending tool and every allowed tool. -/
theorem mcp_c4_allow_list :
    (∀ (server : McpServerConfig) (tool_name : String),
      server.allowed_tools = [] → is_tool_allowed server tool_name = true) ∧
    (∀ (server : McpServerConfig) (tool_name : String),
      server.allowed_tools ≠ [] →
        (is_tool_allowed server tool_name = true ↔ tool_name ∈ server.allowed_tools)) ∧
    (∀ (sec : SecurityCaps) (cfg : McpConfig) (args : Json) (cache : List (String × Nat))
        (alive : Nat → Bool) (env : ConnEnv) (fresh : Nat)
        (call : CallToolRequestParam → CallOutcome) (server_name tool_name : String)
        (server : McpServerConfig),
      sec.can_act = true → sec.record_action = true →
      getField args "server" = some server_name →
      getField args "tool" = some tool_name →
      resolve_server cfg server_name = Except.ok server →
      is_tool_allowed server tool_name = false →
      execute sec cfg args cache alive env fresh call =
        ExecResult.res ⟨false, "", some (disallowedToolMsg tool_name server_name server)⟩ ∧
      strContains (disallowedToolMsg tool_name server_name server) tool_name = true ∧
      (∀ t ∈ server.allowed_tools,
        strContains (disallowedToolMsg tool_name server_name server) (rustDebugStr t) = true) ∧
      (∀ t ∈ server.allowed_tools, escapeDebug t = t →
        strContains (disallowedToolMsg tool_name server_name server) t = true)) := by
  refine ⟨?_, ?_, ?_⟩
  · intro server tool_name h
    simp [is_tool_allowed, h]
  · intro server tool_name h
    simp [is_tool_allowed, List.isEmpty_iff, h, List.any_eq_true, beq_iff_eq]
  · intro sec cfg args cache alive env fresh call server_name tool_name server
      h1 h2 hs ht hr hallow
    have hmsg : disallowedToolMsg tool_name server_name server =
        ("Tool '" ++ tool_name) ++
          ("' is not in the allowed_tools list for MCP server '" ++ server_name ++
            "'. Allowed: ") ++ rustDebugList server.allowed_tools := by
      simp [disallowedToolMsg, String.append_assoc]
    refine ⟨?_, ?_, ?_, ?_⟩
    · simp [execute, h1, h2, hs, ht, hr, hallow]
    · rw [hmsg]
      refine strContains_append_left (strContains_append_left ?_ _) _
      exact strContains_append_right _ (strContains_refl tool_name)
    · intro t htm
      rw [hmsg]
      exact strContains_append_right _ (strContains_intro (infix_rustDebugList htm))
    · intro t htm he
      rw [hmsg]
      exact strContains_append_right _ (strContains_intro (infix_name_rustDebugList htm he))

/-- Witness for C4: the `shell` tool is rejected on the `codex` server of the
source's test configuration. -/
theorem mcp_c4_allow_list_witness :
    is_tool_allowed testServerFs "anything" = true ∧
    (is_tool_allowed testServerCodex "codex" = true ↔ "codex" ∈ testServerCodex.allowed_tools) ∧
    execute ⟨true, true⟩ testConfig
        (Json.obj [("server", Json.str "codex"), ("tool", Json.str "shell")]) []
        (fun _ => false) envAllOk 0 (fun _ => CallOutcome.timeout) =
      ExecResult.res ⟨false, "",
        some (disallowedToolMsg "shell" "codex" testServerCodex)⟩ :=
  ⟨mcp_c4_allow_list.1 testServerFs "anything" rfl,
   mcp_c4_allow_list.2.1 testServerCodex "codex" (by decide),
   (mcp_c4_allow_list.2.2 ⟨true, true⟩ testConfig
      (Json.obj [("server", Json.str "codex"), ("tool", Json.str "shell")]) []
      (fun _ => false) envAllOk 0 (fun _ => CallOutcome.timeout) "codex" "shell"
      testServerCodex rfl rfl (by decide) (by decide) (by rfl) (by decide)).1⟩

/-- `mapCallOutcome` always yields an ordinary `ToolResult`, never a hard
error. -/
theorem mapCallOutcome_res (tool_name server_name : String) (n : Nat) (o : CallOutcome) :
    ∃ r, mapCallOutcome tool_name server_name n o = ExecResult.res r := by
  cases o <;> exact ⟨_, rfl⟩

/-- Past the validation steps, `execute` always yields an ordinary
`ToolResult`. -/
theorem execute_res_of_fields
    (sec : SecurityCaps) (cfg : McpConfig) (args : Json) (cache : List (String × Nat))
    (alive : Nat → Bool) (env : ConnEnv) (fresh : Nat)
    (call : CallToolRequestParam → CallOutcome) (server_name tool_name : String)
    (h1 : sec.can_act = true) (h2 : sec.record_action = true)
    (hs : getField args "server" = some server_name)
    (ht : getField args "tool" = some tool_name) :
    ∃ r, execute sec cfg args cache alive env fresh call = ExecResult.res r := by
  cases hr : resolve_server cfg server_name with
  | error e => exact ⟨⟨false, "", some e⟩, by simp [execute, h1, h2, hs, ht, hr]⟩
  | ok server =>
    cases hallow : is_tool_allowed server tool_name with
    | false =>
      exact ⟨⟨false, "", some (disallowedToolMsg tool_name server_name server)⟩,
        by simp [execute, h1, h2, hs, ht, hr, hallow]⟩
    | true =>
      cases hconn : (get_or_connect server cache alive env fresh).1 with
      | error e =>
        exact ⟨⟨false, "", some e⟩, by simp [execute, h1, h2, hs, ht, hr, hallow, hconn]⟩
      | ok h =>
        obtain ⟨r, hrr⟩ := mapCallOutcome_res tool_name server_name
          server.tool_timeout_secs (call ⟨tool_name, (Json.get args "arguments").bind Json.asObj⟩)
        exact ⟨r, by simp [execute, h1, h2, hs, ht, hr, hallow, hconn, hrr]⟩

/-- C5: past the security gates, a missing, non-string or blank-after-trim
`server` (resp. `tool`) field is a hard propagated error, and requests with
both fields present and non-blank never produce a hard error. -/
theorem mcp_c5_field_validation
    (sec : SecurityCaps) (cfg : McpConfig) (args : Json) (cache : List (String × Nat))
    (alive : Nat → Bool) (env : ConnEnv) (fresh : Nat)
    (call : CallToolRequestParam → CallOutcome)
    (h1 : sec.can_act = true) (h2 : sec.record_action = true) :
    (∀ (j : Json) (k : String), getField j k = none ↔
      ((Json.get j k).bind Json.asStr = none ∨
        ∃ s, (Json.get j k).bind Json.asStr = some s ∧ rsTrim s = "")) ∧
    (getField args "server" = none →
      execute sec cfg args cache alive env fresh call =
        ExecResult.hard "Missing 'server' parameter") ∧
    (∀ sv, getField args "server" = some sv → getField args "tool" = none →
      execute sec cfg args cache alive env fresh call =
        ExecResult.hard "Missing 'tool' parameter") ∧
    (∀ sv tl, getField args "server" = some sv → getField args "tool" = some tl →
      ∃ r, execute sec cfg args cache alive env fresh call = ExecResult.res r) := by
  refine ⟨?_, ?_, ?_, ?_⟩
  · intro j k
    cases hb : (Json.get j k).bind Json.asStr with
    | none => simp [getField, hb]
    | some s =>
      simp [getField, hb, Option.filter, String.isEmpty_iff]
  · intro h
    simp [execute, h1, h2, h]
  · intro sv h ht
    simp [execute, h1, h2, h, ht]
  · intro sv tl hs ht
    exact execute_res_of_fields sec cfg args cache alive env fresh call sv tl h1 h2 hs ht

/-- Witness for C5: a request missing `server`, one with a blank `tool`, and
the complete `codex` request. -/
theorem mcp_c5_field_validation_witness :
    execute ⟨true, true⟩ testConfig (Json.obj [("tool", Json.str "codex")]) []
        (fun _ => false) envAllOk 0 (fun _ => CallOutcome.timeout) =
      ExecResult.hard "Missing 'server' parameter" ∧
    execute ⟨true, true⟩ testConfig
        (Json.obj [("server", Json.str "codex"), ("tool", Json.str "  ")]) []
        (fun _ => false) envAllOk 0 (fun _ => CallOutcome.timeout) =
      ExecResult.hard "Missing 'tool' parameter" ∧
    ∃ r, execute ⟨true, true⟩ testConfig argsCodex [] (fun _ => false) envAllOk 0
        (fun _ => CallOutcome.timeout) = ExecResult.res r :=
  ⟨(mcp_c5_field_validation ⟨true, true⟩ testConfig (Json.obj [("tool", Json.str "codex")]) []
      (fun _ => false) envAllOk 0 (fun _ => CallOutcome.timeout) rfl rfl).2.1 (by decide),
   (mcp_c5_field_validation ⟨true, true⟩ testConfig
      (Json.obj [("server", Json.str "codex"), ("tool", Json.str "  ")]) []
      (fun _ => false) envAllOk 0 (fun _ => CallOutcome.timeout) rfl rfl).2.2.1
      "codex" (by decide) (by decide),
   (mcp_c5_field_validation ⟨true, true⟩ testConfig argsCodex []
      (fun _ => false) envAllOk 0 (fun _ => CallOutcome.timeout) rfl rfl).2.2.2
      "codex" "codex" (by decide) (by decide)⟩

/-- The first ten characters of a timeout message. -/
theorem timeoutMsg_take (t s : String) (n : Nat) :
    (timeoutMsg t s n).data.take 10 = "MCP tool c".data := by
  have h : (timeoutMsg t s n).data = "MCP tool call '".data ++
      (t.data ++ ("' on server '".data ++ (s.data ++
        ("' timed out after ".data ++ ((toString n).data ++ "s".data))))) := by
    simp [timeoutMsg, String.data_append, List.append_assoc]
  rw [h, List.take_append_of_le_length (by decide)]
  decide

/-- The first ten characters of a remote-tool-error message. -/
theorem remoteErrMsg_take (t text : String) :
    (remoteErrMsg t text).data.take 10 = "MCP tool '".data := by
  cases he : text.isEmpty with
  | true =>
    have h : (remoteErrMsg t text).data = "MCP tool '".data ++
        (t.data ++ "' returned an error".data) := by
      simp [remoteErrMsg, he, String.data_append, List.append_assoc]
    rw [h, List.take_append_of_le_length (by decide)]
    decide
  | false =>
    have h : (remoteErrMsg t text).data = "MCP tool '".data ++
        (t.data ++ ("' error: ".data ++ text.data)) := by
      simp [remoteErrMsg, he, String.data_append, List.append_assoc]
    rw [h, List.take_append_of_le_length (by decide)]
    decide

/-- A timeout message is never verbally identical to a remote-tool-error
message. -/
theorem timeoutMsg_ne_remoteErrMsg (t s text : String) (n : Nat) :
    timeoutMsg t s n ≠ remoteErrMsg t text :=
  str_ne_of_take_ne 10 (by rw [timeoutMsg_take, remoteErrMsg_take]; decide)

/-- A remote-tool-error message always contains the tool name. -/
theorem remoteErrMsg_contains_tool (t text : String) :
    strContains (remoteErrMsg t text) t = true := by
  cases he : text.isEmpty with
  | true =>
    have h : remoteErrMsg t text = ("MCP tool '" ++ t) ++ "' returned an error" := by
      simp [remoteErrMsg, he, String.append_assoc]
    rw [h]
    exact strContains_append_left (strContains_append_right _ (strContains_refl t)) _
  | false =>
    have h : remoteErrMsg t text = ("MCP tool '" ++ t) ++ ("' error: " ++ text) := by
      simp [remoteErrMsg, he, String.append_assoc]
    rw [h]
    exact strContains_append_left (strContains_append_right _ (strContains_refl t)) _

/-- The timeout message contains the tool name, the server name and the
configured timeout duration. -/
theorem timeoutMsg_contains (t s : String) (n : Nat) :
    strContains (timeoutMsg t s n) t = true ∧
    strContains (timeoutMsg t s n) s = true ∧
    strContains (timeoutMsg t s n) (toString n ++ "s") = true := by
  have h : timeoutMsg t s n = (("MCP tool call '" ++ t) ++ ("' on server '" ++ s)) ++
      ("' timed out after " ++ (toString n ++ "s")) := by
    simp [timeoutMsg, String.append_assoc]
  refine ⟨?_, ?_, ?_⟩
  · rw [h]
    exact strContains_append_left
      (strContains_append_left (strContains_append_right _ (strContains_refl t)) _) _
  · rw [h]
    exact strContains_append_left
      (strContains_append_right _ (strContains_append_right _ (strContains_refl s))) _
  · rw [h]
    exact strContains_append_right _ (strContains_append_right _ (strContains_refl _))

/-- C6 counterexample: the claim requires the remote-tool-error message to
contain the server name, but at this concrete input the remote-error message
is `MCP tool 'codex' error: boom`, which does not contain the server name
`srv`. -/
theorem mcp_c6_counterexample :
    execute ⟨true, true⟩ cfgSrv argsSrv [] (fun _ => false) envAllOk 0
        (fun _ => CallOutcome.ok ⟨[RawContent.text "boom"], some true⟩) =
      ExecResult.res ⟨false, "boom", some "MCP tool 'codex' error: boom"⟩ ∧
    strContains "MCP tool 'codex' error: boom" "srv" = false ∧
    execute ⟨true, true⟩ cfgSrv argsSrv [] (fun _ => false) envAllOk 0
        (fun _ => CallOutcome.timeout) =
      ExecResult.res ⟨false, "",
        some "MCP tool call 'codex' on server 'srv' timed out after 5s"⟩ := by
  refine ⟨by decide, by decide, by decide⟩

/-- C6 (amended): a call exceeding `tool_timeout_secs` fails with a message
distinct in wording from every remote-tool-error failure; both messages
contain the tool name, and the timeout message additionally contains the
server name and the configured timeout duration. -/
theorem mcp_c6_timeout_vs_remote_error
    (sec : SecurityCaps) (cfg : McpConfig) (args : Json) (cache : List (String × Nat))
    (alive : Nat → Bool) (env : ConnEnv) (fresh : Nat) (server_name tool_name : String)
    (server : McpServerConfig) (h : Nat) (reply : CallToolReply)
    (h1 : sec.can_act = true) (h2 : sec.record_action = true)
    (hs : getField args "server" = some server_name)
    (ht : getField args "tool" = some tool_name)
    (hr : resolve_server cfg server_name = Except.ok server)
    (hallow : is_tool_allowed server tool_name = true)
    (hconn : (get_or_connect server cache alive env fresh).1 = Except.ok h)
    (herr : reply.is_error = some true) :
    execute sec cfg args cache alive env fresh (fun _ => CallOutcome.timeout) =
      ExecResult.res ⟨false, "",
        some (timeoutMsg tool_name server_name server.tool_timeout_secs)⟩ ∧
    execute sec cfg args cache alive env fresh (fun _ => CallOutcome.ok reply) =
      ExecResult.res ⟨false, extract_text_from_content reply.content,
        some (remoteErrMsg tool_name (extract_text_from_content reply.content))⟩ ∧
    timeoutMsg tool_name server_name server.tool_timeout_secs ≠
      remoteErrMsg tool_name (extract_text_from_content reply.content) ∧
    strContains (remoteErrMsg tool_name (extract_text_from_content reply.content))
      tool_name = true ∧
    strContains (timeoutMsg tool_name server_name server.tool_timeout_secs) tool_name = true ∧
    strContains (timeoutMsg tool_name server_name server.tool_timeout_secs) server_name = true ∧
    strContains (timeoutMsg tool_name server_name server.tool_timeout_secs)
      (toString server.tool_timeout_secs ++ "s") = true := by
  refine ⟨?_, ?_, timeoutMsg_ne_remoteErrMsg _ _ _ _, remoteErrMsg_contains_tool _ _,
    (timeoutMsg_contains _ _ _).1, (timeoutMsg_contains _ _ _).2.1,
    (timeoutMsg_contains _ _ _).2.2⟩
  · simp [execute, h1, h2, hs, ht, hr, hallow, hconn, mapCallOutcome]
  · simp [execute, h1, h2, hs, ht, hr, hallow, hconn, mapCallOutcome, herr]

/-- Witness for the amended C6 at the concrete `srv` configuration. -/
theorem mcp_c6_timeout_vs_remote_error_witness :
    execute ⟨true, true⟩ cfgSrv argsSrv [] (fun _ => false) envAllOk 0
        (fun _ => CallOutcome.timeout) =
      ExecResult.res ⟨false, "", some (timeoutMsg "codex" "srv" 5)⟩ ∧
    timeoutMsg "codex" "srv" 5 ≠ remoteErrMsg "codex" "boom" :=
  ⟨(mcp_c6_timeout_vs_remote_error ⟨true, true⟩ cfgSrv argsSrv [] (fun _ => false) envAllOk 0
      "srv" "codex" ⟨"srv", "srv-cmd", [], ["codex"], 5, 5, none⟩ 0
      ⟨[RawContent.text "boom"], some true⟩ rfl rfl (by decide) (by decide) (by rfl)
      (by decide) (by rfl) (by rfl)).1,
   (mcp_c6_timeout_vs_remote_error ⟨true, true⟩ cfgSrv argsSrv [] (fun _ => false) envAllOk 0
      "srv" "codex" ⟨"srv", "srv-cmd", [], ["codex"], 5, 5, none⟩ 0
      ⟨[RawContent.text "boom"], some true⟩ rfl rfl (by decide) (by decide) (by rfl)
      (by decide) (by rfl) (by rfl)).2.2.1⟩

/-- When no live cached connection exists, `get_or_connect` takes the
fresh-connection path. -/
theorem get_or_connect_fresh (server : McpServerConfig) (cache : List (String × Nat))
    (alive : Nat → Bool) (env : ConnEnv) (fresh : Nat)
    (hmiss : ∀ h, List.lookup server.name cache = some h → alive h = false) :
    get_or_connect server cache alive env fresh = connectFresh server cache env fresh := by
  unfold get_or_connect
  cases hl : List.lookup server.name cache with
  | none => rfl
  | some h => simp [hmiss h hl]

/-- C7: a spawn failure is reported as a failed `ToolResult` whose message
contains `Failed to spawn`, the offending command and its joined arguments;
more generally every connect-time failure becomes a failed `ToolResult`,
never a hard error. -/
theorem mcp_c7_spawn_failure
    (sec : SecurityCaps) (cfg : McpConfig) (args : Json) (cache : List (String × Nat))
    (alive : Nat → Bool) (env : ConnEnv) (fresh : Nat)
    (call : CallToolRequestParam → CallOutcome) (server_name tool_name e : String)
    (server : McpServerConfig)
    (h1 : sec.can_act = true) (h2 : sec.record_action = true)
    (hs : getField args "server" = some server_name)
    (ht : getField args "tool" = some tool_name)
    (hr : resolve_server cfg server_name = Except.ok server)
    (hallow : is_tool_allowed server tool_name = true) :
    (env.spawn = SpawnOutcome.err e →
      (∀ h, List.lookup server.name cache = some h → alive h = false) →
      execute sec cfg args cache alive env fresh call =
        ExecResult.res ⟨false, "", some (spawnFailMsg server e)⟩ ∧
      strContains (spawnFailMsg server e) "Failed to spawn" = true ∧
      strContains (spawnFailMsg server e) server.command = true ∧
      strContains (spawnFailMsg server e) (joinWith " " server.args) = true) ∧
    (∀ msg, (get_or_connect server cache alive env fresh).1 = Except.error msg →
      execute sec cfg args cache alive env fresh call =
        ExecResult.res ⟨false, "", some msg⟩) := by
  constructor
  · intro hspawn hmiss
    have hconn : (get_or_connect server cache alive env fresh).1 =
        Except.error (spawnFailMsg server e) := by
      rw [get_or_connect_fresh server cache alive env fresh hmiss]
      simp [connectFresh, hspawn]
    have hmsg : spawnFailMsg server e =
        ((("Failed to spawn MCP server '" ++ server.name ++ "' (command: ") ++
          server.command) ++ (" " ++ joinWith " " server.args)) ++ ("): " ++ e) := by
      simp [spawnFailMsg, String.append_assoc]
    refine ⟨by simp [execute, h1, h2, hs, ht, hr, hallow, hconn], ?_, ?_, ?_⟩
    · rw [hmsg]
      exact strContains_append_left (strContains_append_left (strContains_append_left
        (strContains_append_left (strContains_append_left
          (by decide : strContains "Failed to spawn MCP server '" "Failed to spawn" = true)
          server.name) "' (command: ") server.command) (" " ++ joinWith " " server.args))
        ("): " ++ e)
    · rw [hmsg]
      exact strContains_append_left (strContains_append_left
        (strContains_append_right _ (strContains_refl _)) _) _
    · rw [hmsg]
      exact strContains_append_left
        (strContains_append_right _ (strContains_append_right _ (strContains_refl _))) _
  · intro msg hconn
    simp [execute, h1, h2, hs, ht, hr, hallow, hconn]

/-- Witness for C7: the `/nonexistent/path/to/mcp-server` spawn failure of
the source's test. -/
theorem mcp_c7_spawn_failure_witness :
    execute ⟨true, true⟩ ⟨true, [⟨"bad", "/nonexistent/path/to/mcp-server", [], [], 120, 5, none⟩]⟩
        (Json.obj [("server", Json.str "bad"), ("tool", Json.str "anything")]) []
        (fun _ => false) ⟨SpawnOutcome.err "No such file or directory (os error 2)", true, true,
          HandshakeOutcome.ok⟩ 0 (fun _ => CallOutcome.timeout) =
      ExecResult.res ⟨false, "",
        some (spawnFailMsg ⟨"bad", "/nonexistent/path/to/mcp-server", [], [], 120, 5, none⟩
          "No such file or directory (os error 2)")⟩ ∧
    strContains (spawnFailMsg ⟨"bad", "/nonexistent/path/to/mcp-server", [], [], 120, 5, none⟩
        "No such file or directory (os error 2)") "Failed to spawn" = true :=
  ⟨((mcp_c7_spawn_failure ⟨true, true⟩
      ⟨true, [⟨"bad", "/nonexistent/path/to/mcp-server", [], [], 120, 5, none⟩]⟩
      (Json.obj [("server", Json.str "bad"), ("tool", Json.str "anything")]) []
      (fun _ => false) ⟨SpawnOutcome.err "No such file or directory (os error 2)", true, true,
        HandshakeOutcome.ok⟩ 0 (fun _ => CallOutcome.timeout) "bad" "anything"
      "No such file or directory (os error 2)"
      ⟨"bad", "/nonexistent/path/to/mcp-server", [], [], 120, 5, none⟩
      rfl rfl (by decide) (by decide) (by rfl) (by decide)).1 rfl
      (by intro h hl; simp [List.lookup] at hl)).1,
   ((mcp_c7_spawn_failure ⟨true, true⟩
      ⟨true, [⟨"bad", "/nonexistent/path/to/mcp-server", [], [], 120, 5, none⟩]⟩
      (Json.obj [("server", Json.str "bad"), ("tool", Json.str "anything")]) []
      (fun _ => false) ⟨SpawnOutcome.err "No such file or directory (os error 2)", true, true,
        HandshakeOutcome.ok⟩ 0 (fun _ => CallOutcome.timeout) "bad" "anything"
      "No such file or directory (os error 2)"
      ⟨"bad", "/nonexistent/path/to/mcp-server", [], [], 120, 5, none⟩
      rfl rfl (by decide) (by decide) (by rfl) (by decide)).1 rfl
      (by intro h hl; simp [List.lookup] at hl)).2.1⟩

/-- The handshake-timeout message differs from every initialization-failure
message for the same server. -/
theorem startupTimeoutMsg_ne_initFailedMsg (server : McpServerConfig) (e : String) :
    startupTimeoutMsg server ≠ initFailedMsg server e := by
  intro heq
  have hd : (startupTimeoutMsg server).data = (initFailedMsg server e).data := by rw [heq]
  have h1 : (startupTimeoutMsg server).data = "MCP server '".data ++ (server.name.data ++
      ("' startup timed out after ".data ++
        ((toString server.startup_timeout_secs).data ++ "s".data))) := by
    simp [startupTimeoutMsg, String.data_append, List.append_assoc]
  have h2 : (initFailedMsg server e).data = "MCP server '".data ++ (server.name.data ++
      ("' initialization failed: ".data ++ e.data)) := by
    simp [initFailedMsg, String.data_append, List.append_assoc]
  rw [h1, h2] at hd
  have hd2 := List.append_cancel_left (List.append_cancel_left hd)
  have ht4 := congrArg (List.take 4) hd2
  rw [List.take_append_of_le_length (by decide),
    List.take_append_of_le_length (by decide)] at ht4
  exact absurd ht4 (by decide)

/-- C8: a handshake exceeding `startup_timeout_secs` yields an error
containing that exact second count, and the message is distinguishable from
every handshake/protocol-failure message. -/
theorem mcp_c8_startup_timeout
    (server : McpServerConfig) (cache : List (String × Nat)) (alive : Nat → Bool)
    (env : ConnEnv) (fresh : Nat)
    (hmiss : ∀ h, List.lookup server.name cache = some h → alive h = false)
    (hspawn : env.spawn = SpawnOutcome.ok) (hso : env.stdout_ok = true)
    (hsi : env.stdin_ok = true) (hhs : env.handshake = HandshakeOutcome.timeout) :
    (get_or_connect server cache alive env fresh).1 =
      Except.error (startupTimeoutMsg server) ∧
    strContains (startupTimeoutMsg server)
      (toString server.startup_timeout_secs) = true ∧
    (∀ e, startupTimeoutMsg server ≠ initFailedMsg server e) := by
  refine ⟨?_, ?_, fun e => startupTimeoutMsg_ne_initFailedMsg server e⟩
  · rw [get_or_connect_fresh server cache alive env fresh hmiss]
    simp [connectFresh, hspawn, hso, hsi, hhs]
  · have hmsg : startupTimeoutMsg server =
        ("MCP server '" ++ server.name ++ "' startup timed out after ") ++
          (toString server.startup_timeout_secs ++ "s") := by
      simp [startupTimeoutMsg, String.append_assoc]
    rw [hmsg]
    exact strContains_append_right _ (strContains_append_left (strContains_refl _) _)

/-- Witness for C8 at a concrete slow server. -/
theorem mcp_c8_startup_timeout_witness :
    (get_or_connect ⟨"slow", "slow-cmd", [], [], 120, 20, none⟩ [] (fun _ => false)
        ⟨SpawnOutcome.ok, true, true, HandshakeOutcome.timeout⟩ 0).1 =
      Except.error (startupTimeoutMsg ⟨"slow", "slow-cmd", [], [], 120, 20, none⟩) ∧
    strContains (startupTimeoutMsg ⟨"slow", "slow-cmd", [], [], 120, 20, none⟩) "20" = true :=
  ⟨(mcp_c8_startup_timeout ⟨"slow", "slow-cmd", [], [], 120, 20, none⟩ [] (fun _ => false)
      ⟨SpawnOutcome.ok, true, true, HandshakeOutcome.timeout⟩ 0
      (by intro h hl; rfl) rfl rfl rfl rfl).1,
   (mcp_c8_startup_timeout ⟨"slow", "slow-cmd", [], [], 120, 20, none⟩ [] (fun _ => false)
      ⟨SpawnOutcome.ok, true, true, HandshakeOutcome.timeout⟩ 0
      (by intro h hl; rfl) rfl rfl rfl rfl).2.1⟩

/-- A failed fresh connection leaves the cache untouched. -/
theorem connectFresh_error_cache (server : McpServerConfig) (cache : List (String × Nat))
    (env : ConnEnv) (fresh : Nat) (e : String)
    (he : (connectFresh server cache env fresh).1 = Except.error e) :
    (connectFresh server cache env fresh).2 = cache := by
  cases hsp : env.spawn with
  | err m => simp [connectFresh, hsp]
  | ok =>
    cases hso : env.stdout_ok <;> cases hsi : env.stdin_ok <;>
      cases hhs : env.handshake <;> simp_all [connectFresh]

/-- C9: `get_or_connect` modifies the cache only on a successful fresh
connection — every failure leaves the cache exactly as it was, a live cache
hit returns the cached handle without modification, and a successful fresh
connection inserts the new handle under the server's name (overwriting any
existing entry) and returns it. -/
theorem mcp_c9_cache_discipline
    (server : McpServerConfig) (cache : List (String × Nat)) (alive : Nat → Bool)
    (env : ConnEnv) (fresh : Nat) :
    (∀ e, (get_or_connect server cache alive env fresh).1 = Except.error e →
      (get_or_connect server cache alive env fresh).2 = cache) ∧
    (∀ h, List.lookup server.name cache = some h → alive h = true →
      get_or_connect server cache alive env fresh = (Except.ok h, cache)) ∧
    ((∀ h, List.lookup server.name cache = some h → alive h = false) →
      env.spawn = SpawnOutcome.ok → env.stdout_ok = true → env.stdin_ok = true →
      env.handshake = HandshakeOutcome.ok →
      get_or_connect server cache alive env fresh =
        (Except.ok fresh, insertOverwrite cache server.name fresh) ∧
      List.lookup server.name (insertOverwrite cache server.name fresh) = some fresh) := by
  refine ⟨?_, ?_, ?_⟩
  · intro e
    unfold get_or_connect
    cases hl : List.lookup server.name cache with
    | none => exact fun he => connectFresh_error_cache server cache env fresh e he
    | some h =>
      by_cases ha : alive h = true
      · simp [ha]
      · have ha2 : alive h = false := by revert ha; cases alive h <;> simp
        simp only [ha2, Bool.false_eq_true, if_false]
        exact fun he => connectFresh_error_cache server cache env fresh e he
  · intro h hl ha
    unfold get_or_connect
    rw [hl]
    simp [ha]
  · intro hmiss hsp hso hsi hhs
    refine ⟨?_, lookup_insertOverwrite cache server.name fresh⟩
    rw [get_or_connect_fresh server cache alive env fresh hmiss]
    simp [connectFresh, hsp, hso, hsi, hhs]

/-- Witness for C9: a dead cached entry for `codex` is overwritten on a
successful reconnect; a spawn failure leaves the same cache unchanged; a
live entry is returned as is. -/
theorem mcp_c9_cache_discipline_witness :
    get_or_connect testServerCodex [("codex", 7)] (fun _ => false) envAllOk 3 =
      (Except.ok 3, [("codex", 3)]) ∧
    (get_or_connect testServerCodex [("codex", 7)] (fun _ => false)
        ⟨SpawnOutcome.err "boom", true, true, HandshakeOutcome.ok⟩ 3).2 =
      [("codex", 7)] ∧
    get_or_connect testServerCodex [("codex", 7)] (fun _ => true) envAllOk 3 =
      (Except.ok 7, [("codex", 7)]) := by
  refine ⟨?_, ?_, ?_⟩
  · exact ((mcp_c9_cache_discipline testServerCodex [("codex", 7)] (fun _ => false)
      envAllOk 3).2.2 (by intro h hl; rfl) rfl rfl rfl rfl).1
  · exact (mcp_c9_cache_discipline testServerCodex [("codex", 7)] (fun _ => false)
      ⟨SpawnOutcome.err "boom", true, true, HandshakeOutcome.ok⟩ 3).1
      (spawnFailMsg testServerCodex "boom") (by rfl)
  · exact (mcp_c9_cache_discipline testServerCodex [("codex", 7)] (fun _ => true)
      envAllOk 3).2.1 7 (by decide) rfl

/-- The declared parameter schema always lists `arguments` among the
required fields. -/
theorem parameters_schema_required (cfg : McpConfig) :
    Json.get (parameters_schema cfg) "required" =
      some (Json.arr [Json.str "server", Json.str "tool", Json.str "arguments"]) := by
  cases hse : cfg.servers.isEmpty with
  | true =>
    unfold parameters_schema
    rw [hse]
    rfl
  | false =>
    unfold parameters_schema
    rw [hse]
    rfl

/-- C10: once a request has passed the gates, field validation, server
resolution, the allow-list and connection acquisition, a missing or
non-object `arguments` field never causes a hard error — the remote call is
made with no arguments (`none`) — even though the declared parameter schema
lists `arguments` as required. -/
theorem mcp_c10_arguments_optional
    (sec : SecurityCaps) (cfg : McpConfig) (args : Json) (cache : List (String × Nat))
    (alive : Nat → Bool) (env : ConnEnv) (fresh : Nat)
    (call : CallToolRequestParam → CallOutcome) (server_name tool_name : String)
    (server : McpServerConfig) (h : Nat)
    (h1 : sec.can_act = true) (h2 : sec.record_action = true)
    (hs : getField args "server" = some server_name)
    (ht : getField args "tool" = some tool_name)
    (hr : resolve_server cfg server_name = Except.ok server)
    (hallow : is_tool_allowed server tool_name = true)
    (hconn : (get_or_connect server cache alive env fresh).1 = Except.ok h)
    (hargs : (Json.get args "arguments").bind Json.asObj = none) :
    execute sec cfg args cache alive env fresh call =
      mapCallOutcome tool_name server_name server.tool_timeout_secs
        (call ⟨tool_name, none⟩) ∧
    (∀ o, ∃ r, mapCallOutcome tool_name server_name server.tool_timeout_secs o =
      ExecResult.res r) ∧
    Json.get (parameters_schema cfg) "required" =
      some (Json.arr [Json.str "server", Json.str "tool", Json.str "arguments"]) ∧
    Json.str "arguments" ∈ [Json.str "server", Json.str "tool", Json.str "arguments"] := by
  refine ⟨?_, mapCallOutcome_res tool_name server_name server.tool_timeout_secs,
    parameters_schema_required cfg, by simp⟩
  simp [execute, h1, h2, hs, ht, hr, hallow, hconn, hargs]

/-- Witness for C10: a `codex` request whose `arguments` field is a string
(not an object) still reaches the call with `none` arguments. -/
theorem mcp_c10_arguments_optional_witness :
    execute ⟨true, true⟩ testConfig
        (Json.obj [("server", Json.str "codex"), ("tool", Json.str "codex"),
          ("arguments", Json.str "oops")]) []
        (fun _ => false) envAllOk 0 (fun _ => CallOutcome.timeout) =
      mapCallOutcome "codex" "codex" 600 CallOutcome.timeout :=
  (mcp_c10_arguments_optional ⟨true, true⟩ testConfig
    (Json.obj [("server", Json.str "codex"), ("tool", Json.str "codex"),
      ("arguments", Json.str "oops")]) []
    (fun _ => false) envAllOk 0 (fun _ => CallOutcome.timeout) "codex" "codex"
    testServerCodex 0 rfl rfl (by decide) (by decide) (by rfl) (by decide) (by rfl)
    (by rfl)).1

/-- Witness for C1: the classifier drops the `codex/event` notification line. -/
theorem mcp_c1_notification_classifier_witness :
    is_non_standard_notification
      "\x7b\"jsonrpc\":\"2.0\",\"method\":\"codex/event\",\"params\":\x7b\x7d\x7d" = true :=
  mcp_c1_notification_classifier.2.1
